import Mathlib

/-
Verification of the dht22-server core (src/server/src/main.rs) against its
design specification.  The Rust code is shallowly embedded: Rust str values
become List Char, byte buffers become List Nat, the fixed-capacity heapless
String of capacity BUFF_SIZE becomes an explicit capacity-checked append
(write_str), and every place where the Rust code calls .unwrap() on a
fallible operation is modelled by Option, where a result of none means the
program panics at that point.
-/

/-- UTF-8 encoded size in bytes of one character, as for a Rust char. -/
def charUtf8Size (c : Char) : Nat :=
  if c.toNat < 0x80 then 1
  else if c.toNat < 0x800 then 2
  else if c.toNat < 0x10000 then 3
  else 4

/-- Byte length of a string, as Rust str::len (UTF-8 byte count). -/
def str_len (s : List Char) : Nat := (s.map charUtf8Size).sum

/-- Capacity of every large buffer in the program: const BUFF_SIZE: usize = 8192. -/
def BUFF_SIZE : Nat := 8192

/-- The canonical line terminator written by process_ssi. -/
def CRLF : List Char := ['\r', '\n']

/-- One write_str call on a heapless String of capacity BUFF_SIZE: the text is
appended if it fits in the remaining capacity, otherwise the write fails and
nothing is appended (heapless push_str is all-or-nothing). -/
def write_str (buf piece : List Char) : Option (List Char) :=
  if str_len buf + str_len piece ≤ BUFF_SIZE then some (buf ++ piece) else none

/-- A sequence of write_str calls, as performed by one write! invocation:
the first failing piece aborts the whole write with an error. -/
def write_pieces (buf : List Char) (ps : List (List Char)) : Option (List Char) :=
  ps.foldlM write_str buf

/-- Helper for splitInclusive: accumulates the current segment (reversed). -/
def splitInclAux : List Char → List Char → List (List Char)
  | [], acc => if acc = [] then [] else [acc.reverse]
  | c :: rest, acc =>
    if c = '\n' then (acc.reverse ++ ['\n']) :: splitInclAux rest []
    else splitInclAux rest (c :: acc)

/-- Rust str::split_inclusive with a newline pattern: segments keep their
trailing newline; an empty input yields no segments. -/
def splitIncl (s : List Char) : List (List Char) := splitInclAux s []

/-- Rust str::strip_suffix with a single-character pattern: some of the
text without the suffix when the text ends with that character. -/
def stripSuffixChar (l : List Char) (c : Char) : Option (List Char) :=
  match l.reverse with
  | c0 :: rest => if c0 = c then some rest.reverse else none
  | [] => none

/-- The per-segment map inside Rust str::lines: strip one trailing newline,
and if that succeeded also strip one trailing carriage return. -/
def stripLineEnd (l : List Char) : List Char :=
  match stripSuffixChar l '\n' with
  | none => l
  | some l1 =>
    match stripSuffixChar l1 '\r' with
    | none => l1
    | some l2 => l2

/-- Rust str::lines, as iterated by process_ssi. -/
def linesOf (s : List Char) : List (List Char) := (splitIncl s).map stripLineEnd

/-- Rust str::find with a substring pattern: index of the first occurrence. -/
def findSub (s tag : List Char) : Option Nat :=
  if tag.isPrefixOf s then some 0
  else
    match s with
    | [] => none
    | _ :: rest => (findSub rest tag).map (· + 1)

/-- const SSI_TEMP_TAG. -/
def SSI_TEMP_TAG : List Char := "<!--#TEMP-->".toList

/-- const SSI_HUMID_TAG. -/
def SSI_HUMID_TAG : List Char := "<!--#HUMID-->".toList

/-- The pieces written for one line of process_ssi: if the tag is found at
position pos, the line is split there and written as before, value, after,
CRLF; otherwise the line is written unchanged followed by CRLF. -/
def ssiLinePieces (ssi_tag value line : List Char) : List (List Char) :=
  match findSub line ssi_tag with
  | some pos => [line.take pos, value, line.drop (pos + ssi_tag.length), CRLF]
  | none => [line, CRLF]

/-- fn process_ssi(html_file, ssi_tag, value) -> String<BUFF_SIZE>.  The Rust
function iterates over lines, writing each (substituted) line with
write!(..).unwrap() into a fresh capacity-BUFF_SIZE string.  A result of
none models the panic raised by unwrap when a write exceeds the capacity. -/
def process_ssi (html_file ssi_tag value : List Char) : Option (List Char) :=
  (linesOf html_file).foldlM
    (fun buf line => write_pieces buf (ssiLinePieces ssi_tag value line)) []

/-- The full (capacity-unbounded) substituted text for one line. -/
def renderLine (ssi_tag value line : List Char) : List Char :=
  (ssiLinePieces ssi_tag value line).flatten

/-- The full (capacity-unbounded) substituted output of process_ssi. -/
def specRender (html_file ssi_tag value : List Char) : List Char :=
  ((linesOf html_file).map (renderLine ssi_tag value)).flatten

/-- Decimal rendering of a usize, as the Display format argument for
processed_html.len() in the response write!. -/
def natDecimal (n : Nat) : List Char := Nat.toDigits 10 n

/-- The literal header text written before the Content-Length value. -/
def HTTP_HEADER_PREFIX : List Char :=
  "HTTP/1.1 200 OK\r\nContent-Type: text/html\r\nContent-Length: ".toList

/-- Response assembly (main loop): write! of the status line, content type,
Content-Length: processed_html.len(), blank line and body into a fresh
String<BUFF_SIZE>.  Unlike process_ssi, the result of this write! is
matched, so none here models the logged overflow error (session close),
not a panic. -/
def buildResponse (body : List Char) : Option (List Char) :=
  write_pieces []
    [HTTP_HEADER_PREFIX, natDecimal (str_len body), "\r\n\r\n".toList, body]

/-- Whether a byte is a UTF-8 continuation byte. -/
def isUtf8Cont (b : Nat) : Bool := 0x80 ≤ b && b ≤ 0xBF

/-- core::str::from_utf8, shallowly embedded over bytes as Nat: strict UTF-8
validation (rejecting overlong forms, surrogates and values above
0x10FFFF) and decoding to characters; none models Err(Utf8Error). -/
def utf8Decode : List Nat → Option (List Char)
  | [] => some []
  | b0 :: rest =>
    if b0 < 0x80 then
      (utf8Decode rest).map (fun cs => Char.ofNat b0 :: cs)
    else if 0xC2 ≤ b0 ∧ b0 ≤ 0xDF then
      match rest with
      | b1 :: rest1 =>
        if isUtf8Cont b1 then
          (utf8Decode rest1).map
            (fun cs => Char.ofNat (((b0 - 0xC0) <<< 6) + (b1 - 0x80)) :: cs)
        else none
      | [] => none
    else if 0xE0 ≤ b0 ∧ b0 ≤ 0xEF then
      match rest with
      | b1 :: b2 :: rest2 =>
        if (if b0 = 0xE0 then 0xA0 else 0x80) ≤ b1
            ∧ b1 ≤ (if b0 = 0xED then 0x9F else 0xBF)
            ∧ isUtf8Cont b2 then
          (utf8Decode rest2).map
            (fun cs =>
              Char.ofNat
                (((b0 - 0xE0) <<< 12) + ((b1 - 0x80) <<< 6) + (b2 - 0x80)) :: cs)
        else none
      | _ => none
    else if 0xF0 ≤ b0 ∧ b0 ≤ 0xF4 then
      match rest with
      | b1 :: b2 :: b3 :: rest3 =>
        if (if b0 = 0xF0 then 0x90 else 0x80) ≤ b1
            ∧ b1 ≤ (if b0 = 0xF4 then 0x8F else 0xBF)
            ∧ isUtf8Cont b2 ∧ isUtf8Cont b3 then
          (utf8Decode rest3).map
            (fun cs =>
              Char.ofNat
                (((b0 - 0xF0) <<< 18) + ((b1 - 0x80) <<< 12)
                  + ((b2 - 0x80) <<< 6) + (b3 - 0x80)) :: cs)
        else none
      | _ => none
    else none

/-- The literal command prefix recognized by the request handler. -/
def GET_LED : List Char := "GET /led".toList

/-- Result of dht_sensor.read().  The fixed-precision decimal formatting of
the two f32 fields in the Ok branch is abstracted by their already
formatted text; in the Err branch, errText is the Debug text of the error
value e, the single value the code formats into both scalar buffers. -/
inductive SensorResult where
  | ok (tempText humidText : List Char)
  | err (errText : List Char)
deriving DecidableEq

/-- One write! of a text into a fresh String<32> scalar buffer; none models
the panic of the unwrap when the text exceeds the capacity 32. -/
def formatScalar (txt : List Char) : Option (List Char) :=
  if str_len txt ≤ 32 then some txt else none

/-- The two scalar buffers temp_str and humidity_str after the sensor match:
on Ok the two formatted readings, on Err the Debug text of the same error
written into both. -/
def scalarTexts : SensorResult → Option (List Char × List Char)
  | .ok t h =>
    match formatScalar t with
    | none => none
    | some t1 =>
      match formatScalar h with
      | none => none
      | some h1 => some (t1, h1)
  | .err e =>
    match formatScalar e with
    | none => none
    | some e1 =>
      match formatScalar e with
      | none => none
      | some e2 => some (e1, e2)

/-- Outcome of one socket.read in the inner loop: an orderly close (Ok(0)),
n>0 bytes of data together with whether the subsequent write_all would
succeed, or a read error. -/
inductive ReadEvent where
  | closed
  | data (bytes : List Nat) (writeOk : Bool)
  | ioError
deriving DecidableEq

/-- Result of one inner-loop iteration of the ConnectionServer: panic halts
the program; endSession is a break back to accept (carrying the
led_toggle_status and indicator values at that point); respond means the
full response was written and the session loop continues. -/
inductive StepResult where
  | panic
  | endSession (led indicator : Bool)
  | respond (led indicator : Bool) (response : List Char)
deriving DecidableEq

/-- The led_toggle_status and indicator carried by a non-panic step result. -/
def stepLedInd : StepResult → Option (Bool × Bool)
  | .panic => none
  | .endSession l i => some (l, i)
  | .respond l i _ => some (l, i)

/-- One iteration of the ConnectionServer inner read loop (main.rs, the
match on socket.read): decode the request with from_utf8(..).unwrap(),
copy html_str into the working buffer with write!(..).unwrap(), toggle the
led and drive the indicator on a GET /led prefix, format the sensor
reading, apply process_ssi for both tags (each unwrapped), then assemble
the response (overflow there is matched: log and break) and write it
(write error: log and break).  none anywhere an unwrap fails is panic. -/
def serverStep (htmlStr : List Char) (sensor : SensorResult) (led indicator : Bool) :
    ReadEvent → StepResult
  | .closed => .endSession led indicator
  | .ioError => .endSession led indicator
  | .data bytes writeOk =>
    match utf8Decode bytes with
    | none => .panic
    | some request =>
      match write_str [] htmlStr with
      | none => .panic
      | some processed0 =>
        let led1 := if GET_LED.isPrefixOf request then !led else led
        let ind1 := if GET_LED.isPrefixOf request then !led else indicator
        match scalarTexts sensor with
        | none => .panic
        | some (tempTxt, humidTxt) =>
          match process_ssi processed0 SSI_TEMP_TAG tempTxt with
          | none => .panic
          | some p1 =>
            match process_ssi p1 SSI_HUMID_TAG humidTxt with
            | none => .panic
            | some p2 =>
              match buildResponse p2 with
              | none => .endSession led1 ind1
              | some resp =>
                if writeOk then .respond led1 ind1 resp else .endSession led1 ind1

/-- const CYW43_JOIN_ERROR: the 16-entry diagnostic table. -/
def CYW43_JOIN_ERROR : List String :=
  ["Success",
   "Operation failed",
   "Operation timed out",
   "Operation no matching network found",
   "Operation was aborted",
   "[Protocol Failure] Packet not acknowledged",
   "AUTH or ASSOC packet was unsolicited",
   "Attempt to ASSOC to an auto auth configuration",
   "Scan results are incomplete",
   "Scan aborted by another scan",
   "Scan aborted due to assoc in progress",
   "802.11h quiet period started",
   "User disabled scanning (WLC_SET_SCANSUPPRESS)",
   "No allowable channels to scat",
   "Scan aborted due to CCX fast roam",
   "Abort channel select"]

/-- State threaded through the association retry loop: led_toggle_status,
the indicator value last written with control.gpio_set(0, _), and the
sequence of logged diagnostics. -/
structure AssocState where
  led : Bool
  indicator : Bool
  logged : List String
deriving DecidableEq

/-- Handling of one failed join attempt (the Err arm of the join loop):
under the guard err.status < 16, the indicator is driven with the current
led_toggle_status, the status is flipped, and the table entry at the
status is logged (an out-of-bounds table access would panic: none); with
no guard match the state is left untouched and the loop simply retries. -/
def onJoinError (st : AssocState) (status : Nat) : Option AssocState :=
  if status < 16 then
    match CYW43_JOIN_ERROR[status]? with
    | some msg =>
      some { led := !st.led, indicator := st.led, logged := st.logged ++ [msg] }
    | none => none
  else some st

/-- State on entry to the join loop: led_toggle_status starts true and the
indicator was switched on by control.gpio_set(0, true) just before. -/
def initAssocState : AssocState := { led := true, indicator := true, logged := [] }

/-- The whole retry loop, given the statuses of the failed attempts that
precede the successful join (the Ok arm changes no state and breaks). -/
def assocRun (st : AssocState) : List Nat → Option AssocState
  | [] => some st
  | status :: rest =>
    match onJoinError st status with
    | some st1 => assocRun st1 rest
    | none => none

/-- Number of failed attempts whose status lies inside the diagnostic table. -/
def inTableFailCount (fails : List Nat) : Nat :=
  (fails.filter (fun s => decide (s < 16))).length

/-- The led_toggle_status value after k guarded failures, starting from led. -/
def parityLed (led : Bool) (k : Nat) : Bool :=
  if k % 2 = 0 then led else !led

@[simp]
lemma str_len_nil : str_len [] = 0 := rfl

lemma str_len_append (a b : List Char) :
    str_len (a ++ b) = str_len a + str_len b := by
  simp [str_len]

/-- A run of write_str calls succeeds exactly when the whole concatenation
fits in the capacity, in which case it appends the concatenation. -/
lemma write_pieces_eq (ps : List (List Char)) :
    ∀ buf : List Char, str_len buf ≤ BUFF_SIZE →
      write_pieces buf ps =
        if str_len buf + str_len ps.flatten ≤ BUFF_SIZE
        then some (buf ++ ps.flatten) else none := by
  induction ps with
  | nil =>
    intro buf h
    simp [write_pieces, Nat.le_of_lt, h]
  | cons p ps ih =>
    intro buf h
    by_cases hc : str_len buf + str_len p ≤ BUFF_SIZE
    · have hbp : str_len (buf ++ p) ≤ BUFF_SIZE := by
        rw [str_len_append]; exact hc
      have hrec := ih (buf ++ p) hbp
      simp only [write_pieces, List.foldlM_cons, write_str, if_pos hc,
        Option.bind_eq_bind, Option.some_bind] at *
      rw [hrec]
      simp [str_len_append, Nat.add_assoc, List.append_assoc]
    · have hno : ¬ str_len buf + str_len (p :: ps).flatten ≤ BUFF_SIZE := by
        simp only [List.flatten_cons, str_len_append]
        omega
      simp only [write_pieces, List.foldlM_cons, write_str, if_neg hc,
        Option.bind_eq_bind, Option.none_bind, if_neg hno]

/-- The line loop of process_ssi, generalized over the starting buffer. -/
lemma process_ssi_run (tag value : List Char) (lns : List (List Char)) :
    ∀ buf : List Char, str_len buf ≤ BUFF_SIZE →
      lns.foldlM (fun b l => write_pieces b (ssiLinePieces tag value l)) buf =
        if str_len buf + str_len ((lns.map (renderLine tag value)).flatten) ≤ BUFF_SIZE
        then some (buf ++ (lns.map (renderLine tag value)).flatten) else none := by
  induction lns with
  | nil =>
    intro buf h
    simp [h]
  | cons l lns ih =>
    intro buf h
    have hw := write_pieces_eq (ssiLinePieces tag value l) buf h
    rw [show (ssiLinePieces tag value l).flatten = renderLine tag value l from rfl] at hw
    simp only [List.foldlM_cons, Option.bind_eq_bind, List.map_cons, List.flatten_cons]
    rw [hw]
    by_cases hc : str_len buf + str_len (renderLine tag value l) ≤ BUFF_SIZE
    · have hbp : str_len (buf ++ renderLine tag value l) ≤ BUFF_SIZE := by
        rw [str_len_append]; exact hc
      rw [if_pos hc]
      simp only [Option.some_bind]
      rw [ih (buf ++ renderLine tag value l) hbp]
      simp [str_len_append, Nat.add_assoc, List.append_assoc]
    · rw [if_neg hc]
      have hno : ¬ str_len buf + str_len (renderLine tag value l
          ++ ((lns.map (renderLine tag value)).flatten)) ≤ BUFF_SIZE := by
        rw [str_len_append]; omega
      simp only [Option.none_bind, if_neg hno]

/-- process_ssi returns the complete substituted output when it fits the
capacity and panics (none) when it does not: it never truncates. -/
lemma process_ssi_spec (html_file ssi_tag value : List Char) :
    process_ssi html_file ssi_tag value =
      if str_len (specRender html_file ssi_tag value) ≤ BUFF_SIZE
      then some (specRender html_file ssi_tag value) else none := by
  have h := process_ssi_run ssi_tag value (linesOf html_file) [] (by simp)
  simpa [process_ssi, specRender, write_pieces] using h

/-- When findSub reports index k, the tag indeed occurs at k. -/
lemma findSub_isPrefix :
    ∀ (s tag : List Char) (k : Nat),
      findSub s tag = some k → tag.isPrefixOf (s.drop k) = true := by
  intro s
  induction s with
  | nil =>
    intro tag k h
    by_cases hp : tag.isPrefixOf ([] : List Char)
    · simp only [findSub, if_pos hp] at h
      cases h
      simpa using hp
    · simp [findSub, hp] at h
  | cons c rest ih =>
    intro tag k h
    by_cases hp : tag.isPrefixOf (c :: rest)
    · simp only [findSub, if_pos hp] at h
      cases h
      simpa using hp
    · simp only [findSub, if_neg hp] at h
      cases hf : findSub rest tag with
      | none => rw [hf] at h; simp at h
      | some k0 =>
        rw [hf] at h
        simp at h
        subst h
        simpa using ih tag k0 hf

/-- When findSub reports index k, the tag occurs nowhere before k: k is the
index of the first occurrence, as for Rust str::find. -/
lemma findSub_first :
    ∀ (s tag : List Char) (k : Nat),
      findSub s tag = some k → ∀ j, j < k → tag.isPrefixOf (s.drop j) = false := by
  intro s
  induction s with
  | nil =>
    intro tag k h j hj
    by_cases hp : tag.isPrefixOf ([] : List Char)
    · simp only [findSub, if_pos hp] at h
      cases h
      omega
    · simp [findSub, hp] at h
  | cons c rest ih =>
    intro tag k h j hj
    by_cases hp : tag.isPrefixOf (c :: rest)
    · simp only [findSub, if_pos hp] at h
      cases h
      omega
    · simp only [findSub, if_neg hp] at h
      cases hf : findSub rest tag with
      | none => rw [hf] at h; simp at h
      | some k0 =>
        rw [hf] at h
        simp at h
        subst h
        cases j with
        | zero =>
          simp only [List.drop_zero, ← Bool.not_eq_true]
          simpa using hp
        | succ j0 =>
          simpa using ih tag k0 hf j0 (by omega)

/-- splitInclAux on newline-free input yields one segment (or none if all
empty). -/
lemma splitInclAux_no_nl :
    ∀ (l acc : List Char), '\n' ∉ l →
      splitInclAux l acc =
        if acc.reverse ++ l = [] then [] else [acc.reverse ++ l] := by
  intro l
  induction l with
  | nil =>
    intro acc _
    simp only [splitInclAux, List.append_nil]
    by_cases ha : acc = []
    · simp [ha]
    · rw [if_neg ha, if_neg (by simpa using ha)]
  | cons c rest ih =>
    intro acc h
    have hc : ¬ c = '\n' := by
      intro hEq
      exact h (hEq ▸ List.mem_cons_self c rest)
    simp only [splitInclAux, if_neg hc]
    rw [ih (c :: acc) (fun hm => h (List.mem_cons_of_mem c hm))]
    simp

/-- splitInclAux on newline-free input followed by a final newline yields
exactly one segment ending in that newline. -/
lemma splitInclAux_append_nl :
    ∀ (l acc : List Char), '\n' ∉ l →
      splitInclAux (l ++ ['\n']) acc = [acc.reverse ++ l ++ ['\n']] := by
  intro l
  induction l with
  | nil =>
    intro acc _
    simp [splitInclAux]
  | cons c rest ih =>
    intro acc h
    have hc : ¬ c = '\n' := by
      intro hEq
      exact h (hEq ▸ List.mem_cons_self c rest)
    simp only [List.cons_append, splitInclAux, if_neg hc, List.append_eq]
    rw [ih (c :: acc) (fun hm => h (List.mem_cons_of_mem c hm))]
    simp

/-- A character list not containing c has no c-suffix to strip. -/
lemma stripSuffixChar_of_getLast (l : List Char) (c : Char)
    (h : l.getLast? ≠ some c) : stripSuffixChar l c = none := by
  unfold stripSuffixChar
  cases hh : l.reverse with
  | nil => rfl
  | cons c0 t =>
    have hc : ¬ c0 = c := by
      intro hEq
      apply h
      rw [← List.head?_reverse, hh, hEq]
      rfl
    show (if c0 = c then some t.reverse else none) = none
    rw [if_neg hc]

/-- Stripping c from a text ending in c removes exactly that character. -/
lemma stripSuffixChar_append (l : List Char) (c : Char) :
    stripSuffixChar (l ++ [c]) c = some l := by
  unfold stripSuffixChar
  have hrev : (l ++ [c]).reverse = c :: l.reverse := by simp
  rw [hrev]
  simp

/-- stripLineEnd is the identity on a segment with no trailing newline. -/
lemma stripLineEnd_no_nl (l : List Char) (h : '\n' ∉ l) : stripLineEnd l = l := by
  have hlast : l.getLast? ≠ some '\n' := by
    intro hEq
    exact h (List.mem_of_getLast?_eq_some hEq)
  unfold stripLineEnd
  rw [stripSuffixChar_of_getLast l '\n' hlast]

/-- stripLineEnd removes a lone trailing newline when the remaining text
does not end in a carriage return. -/
lemma stripLineEnd_nl (l : List Char) (hr : l.getLast? ≠ some '\r') :
    stripLineEnd (l ++ ['\n']) = l := by
  unfold stripLineEnd
  rw [stripSuffixChar_append l '\n']
  show (match stripSuffixChar l '\r' with | none => l | some l2 => l2) = l
  rw [stripSuffixChar_of_getLast l '\r' hr]

/-- stripLineEnd removes a trailing carriage return + newline pair. -/
lemma stripLineEnd_crnl (l : List Char) : stripLineEnd (l ++ ['\r', '\n']) = l := by
  unfold stripLineEnd
  rw [show l ++ ['\r', '\n'] = (l ++ ['\r']) ++ ['\n'] by simp]
  rw [stripSuffixChar_append (l ++ ['\r']) '\n']
  show (match stripSuffixChar (l ++ ['\r']) '\r' with
        | none => l ++ ['\r'] | some l2 => l2) = l
  rw [stripSuffixChar_append l '\r']

/-- A nonempty newline-free text is a single line. -/
lemma linesOf_single (l : List Char) (hnl : '\n' ∉ l) (hne : l ≠ []) :
    linesOf l = [l] := by
  unfold linesOf splitIncl
  rw [splitInclAux_no_nl l [] hnl]
  simp only [List.reverse_nil, List.nil_append, if_neg hne, List.map_cons, List.map_nil]
  rw [stripLineEnd_no_nl l hnl]

/-- A newline-free text terminated by a newline is that single line, the
terminator stripped. -/
lemma linesOf_single_nl (l : List Char) (hnl : '\n' ∉ l)
    (hr : l.getLast? ≠ some '\r') : linesOf (l ++ ['\n']) = [l] := by
  unfold linesOf splitIncl
  rw [splitInclAux_append_nl l [] hnl]
  simp only [List.reverse_nil, List.nil_append, List.map_cons, List.map_nil]
  rw [stripLineEnd_nl l hr]

/-- A newline-free text terminated by a carriage return + newline pair is
that single line, the terminator stripped. -/
lemma linesOf_single_crnl (l : List Char) (hnl : '\n' ∉ l) :
    linesOf (l ++ ['\r', '\n']) = [l] := by
  have hnl2 : '\n' ∉ l ++ ['\r'] := by
    intro hm
    rcases List.mem_append.1 hm with hm | hm
    · exact hnl hm
    · simp at hm
  unfold linesOf splitIncl
  rw [show l ++ ['\r', '\n'] = (l ++ ['\r']) ++ ['\n'] by simp]
  rw [splitInclAux_append_nl (l ++ ['\r']) [] hnl2]
  simp only [List.reverse_nil, List.nil_append, List.map_cons, List.map_nil]
  congr 1
  rw [show (l ++ ['\r']) ++ ['\n'] = l ++ ['\r', '\n'] by simp]
  exact stripLineEnd_crnl l

/-- Flipping the starting value of the toggle advances the parity by one. -/
lemma parityLed_not (led : Bool) (k : Nat) :
    parityLed (!led) k = parityLed led (k + 1) := by
  unfold parityLed
  rcases Nat.mod_two_eq_zero_or_one k with h | h
  · have h2 : (k + 1) % 2 = 1 := by omega
    simp [h, h2]
  · have h2 : (k + 1) % 2 = 0 := by omega
    simp [h, h2]

/-- The join retry loop never fails (the table access is guarded), and its
final led and indicator are determined by the parity of the number of
in-table failures. -/
lemma assocRun_parity (fails : List Nat) :
    ∀ st : AssocState, ∃ st1 : AssocState,
      assocRun st fails = some st1 ∧
      st1.led = parityLed st.led (inTableFailCount fails) ∧
      st1.indicator =
        (if inTableFailCount fails = 0 then st.indicator
         else parityLed st.led (inTableFailCount fails - 1)) := by
  induction fails with
  | nil =>
    intro st
    exact ⟨st, rfl, by simp [inTableFailCount, parityLed], by simp [inTableFailCount]⟩
  | cons s rest ih =>
    intro st
    by_cases hs : s < 16
    · have hlen : s < CYW43_JOIN_ERROR.length := by
        have : CYW43_JOIN_ERROR.length = 16 := by rfl
        omega
      have hmsg : CYW43_JOIN_ERROR[s]? = some (CYW43_JOIN_ERROR[s]) :=
        List.getElem?_eq_getElem hlen
      have hcount : inTableFailCount (s :: rest) = inTableFailCount rest + 1 := by
        simp [inTableFailCount, List.filter_cons, hs]
      have hstep : assocRun st (s :: rest) =
          assocRun { led := !st.led, indicator := st.led,
                     logged := st.logged ++ [CYW43_JOIN_ERROR[s]] } rest := by
        simp [assocRun, onJoinError, hs, hmsg]
      obtain ⟨st2, hrun, hled, hind⟩ :=
        ih { led := !st.led, indicator := st.led,
             logged := st.logged ++ [CYW43_JOIN_ERROR[s]] }
      refine ⟨st2, by rw [hstep]; exact hrun, ?_, ?_⟩
      · rw [hled, hcount]
        exact parityLed_not st.led (inTableFailCount rest)
      · rw [hind, hcount]
        rcases Nat.eq_zero_or_pos (inTableFailCount rest) with hc0 | hcpos
        · simp [hc0, parityLed]
        · rw [if_neg (by omega), if_neg (by omega)]
          simp only [Nat.add_sub_cancel]
          rw [parityLed_not]
          congr 1
          omega
    · have hcount : inTableFailCount (s :: rest) = inTableFailCount rest := by
        simp [inTableFailCount, List.filter_cons, hs]
      have hstep : assocRun st (s :: rest) = assocRun st rest := by
        simp [assocRun, onJoinError, hs]
      obtain ⟨st2, hrun, hled, hind⟩ := ih st
      exact ⟨st2, by rw [hstep]; exact hrun,
        by rw [hcount]; exact hled, by rw [hcount]; exact hind⟩

/-- Sum of n copies of one. -/
lemma sum_replicate_one (n : Nat) : (List.replicate n (1 : Nat)).sum = n := by
  induction n with
  | zero => rfl
  | succ k ih => simp [List.replicate_succ, ih]; omega

/-- C1 (corrected): capacity behaviour of process_ssi.  Whenever the fully
substituted output fits in BUFF_SIZE, process_ssi returns exactly that
output, never a truncated one; whenever the output would exceed
BUFF_SIZE, process_ssi panics (none, the unwrap on the failed write)
instead of failing with an error result — the Rust return type
String<BUFF_SIZE> carries no error at all. -/
theorem process_ssi_capacity_characterization
    (html_file ssi_tag value : List Char) :
    process_ssi html_file ssi_tag value =
      if str_len (specRender html_file ssi_tag value) ≤ BUFF_SIZE
      then some (specRender html_file ssi_tag value) else none :=
  process_ssi_spec html_file ssi_tag value

/-- C1 counterexample: a replacement value of 8191 bytes substituted into a
line holding only the tag makes the rendered line 8193 bytes, exceeding
BUFF_SIZE = 8192; process_ssi hits the capacity limit while writing the
CRLF and panics (none) instead of failing with an explicit error result,
refuting the never-panics part of the claim. -/
theorem process_ssi_overflow_panics_cex :
    process_ssi SSI_TEMP_TAG SSI_TEMP_TAG (List.replicate 8191 'a') = none := by
  rw [process_ssi_spec]
  have hrender : specRender SSI_TEMP_TAG SSI_TEMP_TAG (List.replicate 8191 'a')
      = List.replicate 8191 'a' ++ CRLF := by
    unfold specRender
    rw [linesOf_single SSI_TEMP_TAG (by decide) (by decide)]
    simp only [List.map_cons, List.map_nil, List.flatten_cons, List.flatten_nil,
      List.append_nil]
    unfold renderLine ssiLinePieces
    rw [show findSub SSI_TEMP_TAG SSI_TEMP_TAG = some 0 by decide]
    simp only [List.take_zero, Nat.zero_add, List.flatten_cons, List.flatten_nil,
      List.nil_append, List.append_nil]
    rw [show SSI_TEMP_TAG.drop SSI_TEMP_TAG.length = [] by decide]
    simp only [List.nil_append, List.append_nil]
  rw [hrender]
  have hlen : str_len (List.replicate 8191 'a' ++ CRLF) = 8193 := by
    rw [str_len_append]
    have h1 : str_len (List.replicate 8191 'a') = 8191 := by
      unfold str_len
      rw [List.map_replicate, show charUtf8Size 'a' = 1 by decide,
        sum_replicate_one]
    have h2 : str_len CRLF = 2 := by decide
    omega
  rw [if_neg (by rw [hlen]; unfold BUFF_SIZE; omega)]

/-- C4 (confirmed): on a line whose first tag occurrence is at index k,
process_ssi replaces exactly that occurrence — the output is the text
before k, then the value, then the text after the occurrence copied
verbatim (so any further occurrence of the tag in it is left intact),
terminated by CRLF — and no occurrence exists before k. -/
theorem ssi_first_occurrence_only
    (l ssi_tag value : List Char) (k : Nat)
    (hfind : findSub l ssi_tag = some k)
    (hnl : '\n' ∉ l) (hne : l ≠ [])
    (hcap : str_len (l.take k ++ value ++ l.drop (k + ssi_tag.length) ++ CRLF)
      ≤ BUFF_SIZE) :
    process_ssi l ssi_tag value =
        some (l.take k ++ value ++ l.drop (k + ssi_tag.length) ++ CRLF)
      ∧ ∀ j, j < k → ssi_tag.isPrefixOf (l.drop j) = false := by
  constructor
  · rw [process_ssi_spec]
    have hrender : specRender l ssi_tag value =
        l.take k ++ value ++ l.drop (k + ssi_tag.length) ++ CRLF := by
      unfold specRender
      rw [linesOf_single l hnl hne]
      simp only [List.map_cons, List.map_nil, List.flatten_cons, List.flatten_nil,
        List.append_nil]
      unfold renderLine ssiLinePieces
      rw [hfind]
      simp only [List.flatten_cons, List.flatten_nil, List.append_nil,
        List.append_assoc]
    rw [hrender, if_pos hcap]
  · exact findSub_first l ssi_tag k hfind

/-- C4 witness: the example line with two TEMP tags and value 21.5 renders
with only the first occurrence replaced, CRLF terminated. -/
theorem ssi_first_occurrence_only_witness :
    process_ssi "<!--#TEMP--> and <!--#TEMP-->".toList SSI_TEMP_TAG "21.5".toList
      = some "21.5 and <!--#TEMP-->\r\n".toList :=
  ((ssi_first_occurrence_only "<!--#TEMP--> and <!--#TEMP-->".toList SSI_TEMP_TAG
    "21.5".toList 0 (by decide) (by decide) (by decide) (by decide)).1).trans
    (by decide)

/-- C5 (confirmed): a line without the tag passes through unchanged with a
CRLF terminator appended, independent of the replacement value, and the
same CRLF-terminated output results whether the source line was
unterminated, newline terminated, or CRLF terminated. -/
theorem ssi_no_tag_passthrough_crlf
    (l ssi_tag value : List Char)
    (hfind : findSub l ssi_tag = none)
    (hnl : '\n' ∉ l) (hne : l ≠ []) (hcr : l.getLast? ≠ some '\r')
    (hcap : str_len l + 2 ≤ BUFF_SIZE) :
    process_ssi l ssi_tag value = some (l ++ CRLF)
      ∧ process_ssi (l ++ ['\n']) ssi_tag value = some (l ++ CRLF)
      ∧ process_ssi (l ++ ['\r', '\n']) ssi_tag value = some (l ++ CRLF) := by
  have hone : ∀ s, linesOf s = [l] →
      process_ssi s ssi_tag value = some (l ++ CRLF) := by
    intro s hls
    rw [process_ssi_spec]
    have hr : specRender s ssi_tag value = l ++ CRLF := by
      unfold specRender
      rw [hls]
      simp only [List.map_cons, List.map_nil, List.flatten_cons, List.flatten_nil,
        List.append_nil]
      unfold renderLine ssiLinePieces
      rw [hfind]
      simp only [List.flatten_cons, List.flatten_nil, List.append_nil]
    rw [hr, if_pos (by
      rw [str_len_append, show str_len CRLF = 2 by decide]
      exact hcap)]
  exact ⟨hone l (linesOf_single l hnl hne),
    hone (l ++ ['\n']) (linesOf_single_nl l hnl hcr),
    hone (l ++ ['\r', '\n']) (linesOf_single_crnl l hnl)⟩

/-- C5 witness: the tagless line Hello in all three terminator forms renders
as Hello followed by CRLF, with an arbitrary replacement value. -/
theorem ssi_no_tag_passthrough_crlf_witness :
    process_ssi "Hello".toList SSI_TEMP_TAG "21.5".toList
        = some ("Hello".toList ++ CRLF)
      ∧ process_ssi ("Hello".toList ++ ['\n']) SSI_TEMP_TAG "21.5".toList
        = some ("Hello".toList ++ CRLF)
      ∧ process_ssi ("Hello".toList ++ ['\r', '\n']) SSI_TEMP_TAG "21.5".toList
        = some ("Hello".toList ++ CRLF) :=
  ssi_no_tag_passthrough_crlf "Hello".toList SSI_TEMP_TAG "21.5".toList
    (by decide) (by decide) (by decide) (by decide) (by decide)

/-- C6 (confirmed): whenever the response assembly succeeds, the emitted
bytes are exactly the status line, the content-type header, a
Content-Length equal to the exact byte length of the body, a blank line,
and the body. -/
theorem http_response_content_length_exact (body resp : List Char)
    (h : buildResponse body = some resp) :
    resp = HTTP_HEADER_PREFIX ++ natDecimal (str_len body)
      ++ "\r\n\r\n".toList ++ body := by
  unfold buildResponse at h
  rw [write_pieces_eq _ [] (by simp)] at h
  split at h
  · injection h with h
    rw [← h]
    simp only [List.flatten_cons, List.flatten_nil, List.append_nil,
      List.nil_append, List.append_assoc]
  · exact absurd h (by simp)

/-- C6 witness: response assembly for the one-byte body x declares length 1
and appends exactly that body. -/
theorem http_response_content_length_exact_witness :
    "HTTP/1.1 200 OK\r\nContent-Type: text/html\r\nContent-Length: 1\r\n\r\nx".toList
      = HTTP_HEADER_PREFIX ++ natDecimal (str_len "x".toList)
        ++ "\r\n\r\n".toList ++ "x".toList :=
  http_response_content_length_exact "x".toList
    "HTTP/1.1 200 OK\r\nContent-Type: text/html\r\nContent-Length: 1\r\n\r\nx".toList
    (by decide)

/-- C7 (confirmed): for a decoded request, whenever request handling
completes without panicking, led_toggle_status is flipped exactly once
and the indicator driven with the new value if and only if the request
begins with GET /led; otherwise both are left unchanged. -/
theorem led_toggle_iff_get_led_prefix
    (htmlStr : List Char) (sensor : SensorResult) (led ind : Bool)
    (bytes : List Nat) (w : Bool) (request : List Char)
    (hdec : utf8Decode bytes = some request)
    (p : Bool × Bool)
    (hres : stepLedInd (serverStep htmlStr sensor led ind (.data bytes w))
      = some p) :
    p = if GET_LED.isPrefixOf request then (!led, !led) else (led, ind) := by
  simp only [serverStep] at hres
  rw [hdec] at hres
  by_cases hpre : GET_LED.isPrefixOf request
  all_goals simp only [hpre, if_true, if_false, Bool.false_eq_true] at hres ⊢
  all_goals {
    cases hw : write_str [] htmlStr with
    | none => simp [hw, stepLedInd] at hres
    | some p0 =>
      simp only [hw] at hres
      cases hsc : scalarTexts sensor with
      | none => simp [hsc, stepLedInd] at hres
      | some tp =>
        obtain ⟨tt, ht⟩ := tp
        simp only [hsc] at hres
        cases h1 : process_ssi p0 SSI_TEMP_TAG tt with
        | none => simp [h1, stepLedInd] at hres
        | some q1 =>
          simp only [h1] at hres
          cases h2 : process_ssi q1 SSI_HUMID_TAG ht with
          | none => simp [h2, stepLedInd] at hres
          | some q2 =>
            simp only [h2] at hres
            cases h3 : buildResponse q2 with
            | none =>
              simp only [h3, stepLedInd] at hres
              injection hres with hres
              exact hres.symm
            | some resp =>
              simp only [h3] at hres
              cases w with
              | true =>
                simp only [if_true, stepLedInd] at hres
                injection hres with hres
                exact hres.symm
              | false =>
                simp only [Bool.false_eq_true, if_false, stepLedInd] at hres
                injection hres with hres
                exact hres.symm
  }

/-- C7 witness: a GET /led request flips the led from false to true and
drives the indicator with the new value. -/
theorem led_toggle_iff_get_led_prefix_witness :
    ((true, true) : Bool × Bool)
      = if GET_LED.isPrefixOf "GET /led".toList then (!false, !false)
        else (false, false) :=
  led_toggle_iff_get_led_prefix "A".toList
    (.ok "1.0".toList "2.0".toList) false false
    [71, 69, 84, 32, 47, 108, 101, 100] true "GET /led".toList
    (by decide) (true, true) (by decide)

/-- C8 (confirmed): when the sensor read fails, the Debug text of the one
error value is used as the replacement for both the temperature and the
humidity tag (both scalar buffers are filled from the same failed
reading), and request handling still renders the page and sends the
assembled response instead of aborting. -/
theorem sensor_error_renders_page
    (htmlStr e : List Char) (led ind : Bool)
    (bytes : List Nat) (request : List Char)
    (hdec : utf8Decode bytes = some request)
    (hhtml : str_len htmlStr ≤ BUFF_SIZE)
    (he : str_len e ≤ 32)
    (p1 p2 resp : List Char)
    (h1 : process_ssi htmlStr SSI_TEMP_TAG e = some p1)
    (h2 : process_ssi p1 SSI_HUMID_TAG e = some p2)
    (h3 : buildResponse p2 = some resp) :
    serverStep htmlStr (.err e) led ind (.data bytes true)
      = .respond (if GET_LED.isPrefixOf request then !led else led)
                 (if GET_LED.isPrefixOf request then !led else ind) resp := by
  simp only [serverStep]
  rw [hdec]
  have hw : write_str [] htmlStr = some htmlStr := by
    unfold write_str
    rw [if_pos (by simpa using hhtml)]
    simp
  have hsc : scalarTexts (.err e) = some (e, e) := by
    simp only [scalarTexts, formatScalar]
    rw [if_pos he]
  simp [hw, hsc, h1, h2, h3]

/-- C8 witness: with a failing sensor (Debug text Timeout), both tags render
as Timeout and the full response is sent. -/
theorem sensor_error_renders_page_witness :
    serverStep "T:<!--#TEMP-->\nH:<!--#HUMID-->".toList
      (.err "Timeout".toList) false false (.data [71, 69, 84, 32, 47] true)
      = .respond false false
        ("HTTP/1.1 200 OK\r\nContent-Type: text/html\r\nContent-Length: 22\r\n\r\nT:Timeout\r\nH:Timeout\r\n".toList) :=
  (sensor_error_renders_page "T:<!--#TEMP-->\nH:<!--#HUMID-->".toList
    "Timeout".toList false false [71, 69, 84, 32, 47] "GET /".toList
    (by decide) (by decide) (by decide)
    "T:Timeout\r\nH:<!--#HUMID-->\r\n".toList
    "T:Timeout\r\nH:Timeout\r\n".toList
    ("HTTP/1.1 200 OK\r\nContent-Type: text/html\r\nContent-Length: 22\r\n\r\nT:Timeout\r\nH:Timeout\r\n".toList)
    (by decide) (by decide) (by decide)).trans (by decide)

/-- C2 (corrected): a received request that is not valid UTF-8 makes the
from_utf8 unwrap panic, halting the program — it is not handled as a
session-level error. -/
theorem invalid_utf8_request_panics
    (htmlStr : List Char) (sensor : SensorResult) (led ind : Bool)
    (bytes : List Nat) (w : Bool)
    (hdec : utf8Decode bytes = none) :
    serverStep htmlStr sensor led ind (.data bytes w) = .panic := by
  simp only [serverStep]
  rw [hdec]

/-- C2 witness: the lone byte 0xC0 is invalid UTF-8 and panics the server
step. -/
theorem invalid_utf8_request_panics_witness :
    serverStep [] (SensorResult.err []) false false (.data [192] true)
      = StepResult.panic :=
  invalid_utf8_request_panics [] (.err []) false false [192] true (by decide)

/-- C2 counterexample: a one-byte request 0xFF fails UTF-8 decoding and the
step result is panic (the whole service halts), not a session close
followed by a return to accept, refuting the claim that such input is
fatal only to the session. -/
theorem invalid_utf8_request_halts_cex :
    serverStep [] (SensorResult.err []) true true (.data [255] true)
      = StepResult.panic := by decide

/-- C3 (corrected): a join failure whose status code lies outside the
16-entry diagnostic table is skipped silently: no diagnostic is selected
or logged, led_toggle_status and the indicator are left untouched (in
particular no out-of-bounds table access happens), and the loop simply
retries. -/
theorem join_error_out_of_table_ignored (st : AssocState) (k : Nat) :
    onJoinError st (16 + k) = some st := by
  unfold onJoinError
  rw [if_neg (by omega)]

/-- C3 counterexample: at the first out-of-table status, 16, the state is
returned unchanged — led_toggle_status stays true and nothing is logged —
whereas the claim requires a toggle, an indicator update and a logged
unknown diagnostic. -/
theorem join_error_out_of_table_cex :
    onJoinError { led := true, indicator := true, logged := [] } 16
      = some { led := true, indicator := true, logged := [] } := by decide

/-- C9 (corrected): when the association loop completes, the indicator is on
exactly when the number of failed attempts with in-table status codes is
zero or odd; after an even nonzero number of such failures the indicator
is left off at completion. -/
theorem assoc_indicator_terminal_state (fails : List Nat) :
    ∃ st1 : AssocState,
      assocRun initAssocState fails = some st1 ∧
      (st1.indicator = true ↔
        (inTableFailCount fails = 0 ∨ inTableFailCount fails % 2 = 1)) := by
  obtain ⟨st1, hrun, hled, hind⟩ := assocRun_parity fails initAssocState
  refine ⟨st1, hrun, ?_⟩
  rw [hind]
  rcases Nat.eq_zero_or_pos (inTableFailCount fails) with h0 | hpos
  · simp [h0, initAssocState]
  · rw [if_neg (by omega)]
    show parityLed initAssocState.led (inTableFailCount fails - 1) = true ↔ _
    rw [show initAssocState.led = true from rfl]
    unfold parityLed
    rcases Nat.mod_two_eq_zero_or_one (inTableFailCount fails - 1) with he | ho
    · rw [if_pos he]
      simp only [true_iff]
      right
      omega
    · rw [if_neg (by omega)]
      simp only [Bool.not_true, Bool.false_eq_true, false_iff]
      push_neg
      constructor
      · omega
      · omega

/-- C9 counterexample: two in-table failures (status 1 twice) before the
successful join leave the indicator off at the moment the associator
completes, refuting the claim that the terminal indicator state is always
on. -/
theorem assoc_indicator_terminal_state_cex :
    (assocRun initAssocState [1, 1]).map AssocState.indicator = some false := by
  decide

/-- C10 (confirmed): the diagnostic table access in the join loop is always
in bounds — it is guarded by status < 16 and the table has 16 entries —
so handling a join failure never panics, for any status value. -/
theorem join_error_table_access_in_bounds (st : AssocState) (status : Nat) :
    (onJoinError st status).isSome = true := by
  unfold onJoinError
  by_cases hs : status < 16
  · rw [if_pos hs]
    have hlen : status < CYW43_JOIN_ERROR.length := by
      have h16 : CYW43_JOIN_ERROR.length = 16 := by rfl
      omega
    rw [List.getElem?_eq_getElem hlen]
    rfl
  · rw [if_neg hs]
    rfl

